import Mathlib

/-!
# Verification of the property/transit data-integration pipeline

Shallow embedding of the computational core of
`src/data_integration_and_web_scraping.py`:

* record merging and duplicate removal (In[3]–In[5]),
* the point-in-polygon geocoder `in_suburb` (In[11]),
* the PDF-derived LGA dictionary and the per-property LGA fill loop
  (In[13], In[14]),
* the nearest-train-station haversine loop (In[17]),
* the weekday-service / destination pre-filters, the hour-24
  normalization pass and the schedule-traversal loop with its
  memoizing `trip_dict` (In[18]–In[25]).

Machine reals (floats) are modelled as exact rationals; library calls
(`shapely`'s polygon containment, `sklearn`'s `haversine_distances`)
are external collaborators and enter the embedding as supplied data
(a containment predicate per polygon, a computed angular distance per
station), while every piece of control flow and arithmetic written in
the source itself is embedded directly.  A Python runtime error
(IndexError on `st_np[i+k]`, ValueError from `strptime`) is modelled
as `none` of an `Option` result.
-/

namespace DataIntegration

/-! ## Timestamps "HH:MM:SS"

The source keeps timestamps as zero-padded strings and manipulates
them through `[0:2]` (the hour digits), `"00" + t[2:]` (replacing the
hour digits) and `datetime.strptime(_, '%H:%M:%S')`.  We model a
timestamp as its three numeric fields; slicing `[0:2]` reads `h`, and
`"00" + t[2:]` sets `h := 0`. -/

structure HMS where
  h : Nat
  m : Nat
  s : Nat
deriving DecidableEq, Repr

/-- Seconds since midnight of the (possibly out-of-range) timestamp. -/
def secondsOfDay (t : HMS) : Nat :=
  t.h * 3600 + t.m * 60 + t.s

/-- `datetime.strptime(t, '%H:%M:%S')` succeeds exactly on in-range
fields (hour 00–23, minute 00–59, second 00–59) and is determined by
the seconds-since-midnight value; out-of-range fields raise
`ValueError`, modelled as `none`. -/
def strptime (t : HMS) : Option Nat :=
  if t.h ≤ 23 ∧ t.m ≤ 59 ∧ t.s ≤ 59 then some (secondsOfDay t) else none

/-- `timedelta.seconds` of `strptime a - strptime b` (both on the same
default date): Python normalizes a timedelta so that `.seconds` is the
difference taken modulo 86400, always in `[0, 86400)`. -/
def deltaSeconds (a b : Nat) : Nat :=
  (86400 + a - b) % 86400

/-- `delta_t.seconds/60` — elapsed minutes recorded for one found trip
(true division, hence a rational). -/
def elapsedMinutes (arrS depS : Nat) : ℚ :=
  (deltaSeconds arrS depS : ℚ) / 60

/-! ## Property records, merging, duplicate removal (In[3]–In[5])

Both feeds carry the four fields `property_id`, `lat`, `lng`,
`addr_street`; at the merging stage all are raw scalar values, kept
here as strings. -/

structure PropRec where
  property_id : String
  lat : String
  lng : String
  addr_street : String
deriving DecidableEq, Repr

/-- `DataFrame.drop_duplicates(keep='first')` with no column subset:
a row is removed iff an *identical whole row* occurred earlier; the
first occurrence is kept, in order. -/
def dropDuplicatesAux (seen : List PropRec) : List PropRec → List PropRec
  | [] => []
  | r :: rest =>
      if r ∈ seen then dropDuplicatesAux seen rest
      else r :: dropDuplicatesAux (r :: seen) rest

/-- `clean_data = pd.concat([content, data]).drop_duplicates(keep='first')`. -/
def cleanData (content data : List PropRec) : List PropRec :=
  dropDuplicatesAux [] (content ++ data)

/-! ## Geocoder (In[10], In[11])

`suburb_polygons` is a dict iterated in insertion order; each value is
a `shapely` polygon and the loop asks `poly.contains(p)`.  The shapely
containment test is an external library call, so a polygon enters the
embedding as its name together with its containment predicate on
(lng, lat) points. -/

structure RatPoint where
  lng : ℚ
  lat : ℚ

structure NamedPoly where
  name : String
  contains : RatPoint → Bool

/-- `in_suburb`: scan the polygon dict in order, return the first name
whose polygon contains the point, else the sentinel. -/
def in_suburb (polys : List NamedPoly) (p : RatPoint) : String :=
  match polys.find? (fun np => np.contains p) with
  | some np => np.name
  | none => "not available"

/-! ## LGA Resolver (In[13], In[14]) -/

/-- Per-page dictionary assignment `LGA_dict[LGA[i]] = ...`: a Python
dict assignment overwrites an existing key in place and otherwise
appends a new key at the end of the iteration order. -/
def dictInsert (d : List (String × List String)) (k : String) (v : List String) :
    List (String × List String) :=
  if d.any (fun kv => kv.1 = k) then
    d.map (fun kv => if kv.1 = k then (k, v) else kv)
  else d ++ [(k, v)]

/-- One PDF page after regex extraction: the matched region headers
(`LGA = re.findall(...)`) and the bracketed suburb-list groups
(`suburbs = re.findall(...)`, newline-stripped and parsed by
`ast.literal_eval`, which preserves the group count). -/
structure Page where
  lgas : List String
  suburbs : List (List String)

/-- Body of the per-page loop of In[13]: if the header count equals
the group count, write all `LGA[i] ↦ suburbs[i]` pairs into the dict
and raise no warning; otherwise leave the dict unchanged and print the
`ERROR: PDF READ IN INCORRECTLY` warning (the Boolean). -/
def processPage (d : List (String × List String)) (p : Page) :
    List (String × List String) × Bool :=
  if p.lgas.length = p.suburbs.length then
    ((p.lgas.zip p.suburbs).foldl (fun acc kv => dictInsert acc kv.1 kv.2) d, false)
  else
    (d, true)

/-- The whole In[13] page loop: every page is processed, warnings or
not — a rejected page never stops the later pages. -/
def buildLGADict (pages : List Page) : List (String × List String) :=
  pages.foldl (fun d p => (processPage d p).1) []

/-- Python `str.lower()` on one character (ASCII case, which is all
the suburb data carries). -/
def lowerChar (c : Char) : Char :=
  if 'A' ≤ c ∧ c ≤ 'Z' then Char.ofNat (c.toNat + 32) else c

/-- Python `str.lower()`. -/
def lowerStr (s : String) : String :=
  String.mk (s.data.map lowerChar)

/-- The match test of the In[14] inner loop:
`if suburb and v and suburb.lower() == v.lower()` — both strings
non-empty (Python truthiness) and equal case-insensitively. -/
def lgaMatch (suburb : String) (kv : String × List String) : Bool :=
  decide (suburb ≠ "") && kv.2.any (fun v => decide (v ≠ "") && (lowerStr suburb = lowerStr v))

/-- The In[14] loop for one property: scan the *whole* dict (there is
no `break`); every matching pair assigns its key to the `Lga` cell, so
the final cell value is the key of the last matching pair, and the
default sentinel `"not available"` (set in In[8]) survives iff no pair
matches. -/
def lgaLookup (dict : List (String × List String)) (suburb : String) : String :=
  dict.foldl (fun acc kv => if lgaMatch suburb kv then kv.1 else acc) "not available"

/-! ## Nearest-Station Finder (In[17])

Per property, the loop keeps `min_dist` (initialized to `1`, an
angular distance in radians) and `dist_changed`; for each station it
computes `result_dist` — the haversine angular distance returned by
`sklearn.haversine_distances` (symmetrized) — and updates on strict
`<` only.  The trigonometric evaluation is the library's (floating
point), so a station enters the embedding with its computed
`result_dist`; everything the source itself does with those numbers is
embedded. -/

structure StationD where
  stop_id : String
  dist : ℚ
deriving DecidableEq, Repr

/-- The inner `for j in range(len(stops))` loop: state is
(`min_dist`, `closest_id` when `dist_changed`). -/
def nearestLoop : List StationD → ℚ → Option String → ℚ × Option String
  | [], m, c => (m, c)
  | s :: rest, m, c =>
      if s.dist < m then nearestLoop rest s.dist (some s.stop_id)
      else nearestLoop rest m c

/-- One property's nearest-station computation: run the loop from
`min_dist = 1`, `dist_changed = False`; afterwards
`dist = min_dist * 6378`, and the two cells are written only if
`dist_changed` (otherwise the In[8] defaults survive, modelled as
`none`). -/
def nearestStation (stations : List StationD) : Option (String × ℚ) :=
  match nearestLoop stations 1 none with
  | (_, none) => none
  | (m, some sid) => some (sid, m * 6378)

/-! ## Schedule Router: pre-filters (In[18]–In[20]) -/

structure CalRow where
  service_id : Nat
  mon : Nat
  tue : Nat
  wed : Nat
  thu : Nat
  fri : Nat

/-- In[18]: services whose five weekday flags sum to 5 (run on all
five weekdays). -/
def service_list (calendar : List CalRow) : List Nat :=
  (calendar.filter (fun c => c.mon + c.tue + c.wed + c.thu + c.fri = 5)).map
    (fun c => c.service_id)

structure TripRow where
  trip_id : Nat
  service_id : Nat

/-- In[19]: trips whose service is in `service_list`.  (The source
collects them into a Python set; only membership is ever used.) -/
def trip_set (trips : List TripRow) (sl : List Nat) : List Nat :=
  (trips.filter (fun t => sl.contains t.service_id)).map (fun t => t.trip_id)

/-- One row of `st_np = stop_times.to_numpy()`, with the column
indices used by In[25]: 0 `trip_id`, 1 `arrival_time`, 2
`departure_time`, 3 `stop_id` (compared through `str(...)`), 4
`stop_sequence` (read through `int(...)`). -/
structure StopRow where
  trip_id : Nat
  arrival_time : HMS
  departure_time : HMS
  stop_id : String
  stop_sequence : Int
deriving DecidableEq, Repr

/-- In[20]: trips of `trip_set` having a stop-time row at the
destination station `"19842"` (Melbourne Central). -/
def mc_trips (st : List StopRow) (ts : List Nat) : List Nat :=
  (st.filter (fun r => ts.contains r.trip_id && decide (r.stop_id = "19842"))).map
    (fun r => r.trip_id)

/-! ## Hour-24 normalization (In[22]) -/

/-- Body of the In[22] loop for one row: if
`int(arrival_time[0:2]) == 24`, replace the hour digits by `"00"`.
Only the `arrival_time` column is inspected or written. -/
def fixArrival (r : StopRow) : StopRow :=
  if r.arrival_time.h = 24 then
    { r with arrival_time := { r.arrival_time with h := 0 } }
  else r

/-- The whole In[22] normalization pass over `stop_times`. -/
def normalizeStopTimes (st : List StopRow) : List StopRow :=
  st.map fixArrival

/-! ## Schedule Router: traversal (In[25]) -/

/-- The inner `for k in range(1, 32)` loop of In[25], entered at
origin index `i` with `seq_begin` and the origin's departure
timestamp.  `fuel` is the number of iterations left (31 when `k = 1`);
the unguarded `st_np[i+k]` raises `IndexError` past the table and
`strptime` raises `ValueError` on an out-of-range timestamp, both
modelled as `none`. -/
def scanGo (st : List StopRow) (i : Nat) (oDep : HMS) (seqBegin : Int) :
    Nat → Nat → ℚ → Nat → Option (ℚ × Nat)
  | 0, _, total, trips => some (total, trips)
  | fuel + 1, k, total, trips =>
      match st.get? (i + k) with
      | none => none
      | some r =>
          if r.stop_sequence < seqBegin then some (total, trips)
          else if r.stop_id = "19842" then
            match strptime r.arrival_time, strptime oDep with
            | some a, some d =>
                scanGo st i oDep seqBegin fuel (k + 1)
                  (total + elapsedMinutes a d) (trips + 1)
            | _, _ => none
          else scanGo st i oDep seqBegin fuel (k + 1) total trips

/-- The whole forward scan launched from a candidate origin row at
index `i`. -/
def scanAttempt (st : List StopRow) (i : Nat) : Option (ℚ × Nat) :=
  match st.get? i with
  | none => none
  | some o => scanGo st i o.departure_time o.stop_sequence 31 1 0 0

/-- Body of the `for i in range(len(st_np))` loop of In[25] for one
index: a row is a candidate origin when its `stop_id` is the
property's nearest station, its trip is in `mc_trips`, and its
departure hour `h` satisfies `6 < h < 9`; the forward scan's found
trips are accumulated into `(time_total, number_trips)`. -/
def stationStep (st : List StopRow) (mc : List Nat) (sid : String)
    (acc : Option (ℚ × Nat)) (i : Nat) : Option (ℚ × Nat) :=
  match acc with
  | none => none
  | some (total, trips) =>
      match st.get? i with
      | none => some (total, trips)
      | some r =>
          if r.stop_id = sid ∧ r.trip_id ∈ mc ∧
              6 < r.departure_time.h ∧ r.departure_time.h < 9 then
            match scanAttempt st i with
            | none => none
            | some tn => some (total + tn.1, trips + tn.2)
          else some (total, trips)

/-- The full stop-table scan for one station: `time_total = 0`,
`number_trips = 0`, then the loop over all row indices. -/
def stationScan (st : List StopRow) (mc : List Nat) (sid : String) :
    Option (ℚ × Nat) :=
  (List.range st.length).foldl (stationStep st mc sid) (some (0, 0))

/-- A value of `trip_dict`: either the sentinel string
`"not available"` or a rounded average number of minutes. -/
inductive TravelVal where
  | notAvailable : TravelVal
  | minutes : ℤ → TravelVal
deriving DecidableEq, Repr

/-- Python 3 `round` to an integer: round half to even. -/
def pyRound (q : ℚ) : ℤ :=
  if q - q.floor < 1 / 2 then q.floor
  else if q - q.floor > 1 / 2 then q.floor + 1
  else if q.floor % 2 = 0 then q.floor else q.floor + 1

/-- The `if stop_id not in trip_dict` body of In[25] for one station:
scan the table, then store `"not available"` on zero trips, else
`round(time_total/number_trips)`. -/
def stationTravelTime (st : List StopRow) (mc : List Nat) (sid : String) :
    Option TravelVal :=
  match stationScan st mc sid with
  | none => none
  | some tn =>
      if tn.2 = 0 then some TravelVal.notAvailable
      else some (TravelVal.minutes (pyRound (tn.1 / (tn.2 : ℚ))))

/-- `trip_dict` before the loop: the destination station itself is
pre-seeded with travel time 0. -/
def trip_dict_init : List (String × TravelVal) :=
  [("19842", TravelVal.minutes 0)]

/-- The outer `for j in range(len(cd_np))` loop of In[25] over the
properties' nearest-station ids (`str(cd_np[j, 6])`).  The `log`
accumulates the station ids for which the expensive table scan
actually executed (the `stop_id not in trip_dict.keys()` branch); the
dict is an insertion-ordered association list as in Python. -/
def routerLoop (st : List StopRow) (mc : List Nat) :
    List String → List (String × TravelVal) → List String →
    Option (List (String × TravelVal) × List String)
  | [], dict, log => some (dict, log)
  | sid :: rest, dict, log =>
      if (dict.lookup sid).isSome then routerLoop st mc rest dict log
      else
        match stationTravelTime st mc sid with
        | none => none
        | some v => routerLoop st mc rest (dict ++ [(sid, v)]) (log ++ [sid])

/-! ## Helper lemmas -/

theorem strptime_isSome_iff (t : HMS) :
    (strptime t).isSome ↔ t.h ≤ 23 ∧ t.m ≤ 59 ∧ t.s ≤ 59 := by
  unfold strptime
  split <;> simp_all

theorem strptime_eq_some (t : HMS) (a : Nat) (h : strptime t = some a) :
    a = secondsOfDay t ∧ t.h ≤ 23 ∧ t.m ≤ 59 ∧ t.s ≤ 59 := by
  unfold strptime at h
  split at h
  · exact ⟨(Option.some_injective _ h).symm, by assumption⟩
  · exact absurd h (by simp)

theorem deltaSeconds_lt (a b : Nat) : deltaSeconds a b < 86400 :=
  Nat.mod_lt _ (by omega)

/-! ## C10: recorded elapsed times -/

/-- C10: every per-trip elapsed time recorded by the Schedule Router
lies in `[0, 1440)` minutes.  The recorded quantity is
`delta_t.seconds/60` where both timestamps successfully parsed with
`strptime`; `timedelta.seconds` is the difference modulo 24 hours, so
an arrival earlier in the day than the departure yields the large
non-negative wrap-around value `(86400 + a - b)/60`, never a negative
duration or an error. -/
theorem C10_elapsed_in_day_range (ta tb : HMS) (a b : Nat)
    (ha : strptime ta = some a) (hb : strptime tb = some b) :
    0 ≤ elapsedMinutes a b ∧ elapsedMinutes a b < 1440 ∧
    (a < b → elapsedMinutes a b = ((86400 + a - b : ℕ) : ℚ) / 60) := by
  obtain ⟨rfl, ha1, ha2, ha3⟩ := strptime_eq_some ta a ha
  obtain ⟨rfl, hb1, hb2, hb3⟩ := strptime_eq_some tb b hb
  refine ⟨by unfold elapsedMinutes; positivity, ?_, ?_⟩
  · have h := deltaSeconds_lt (secondsOfDay ta) (secondsOfDay tb)
    unfold elapsedMinutes
    rw [div_lt_iff₀ (by norm_num)]
    calc ((deltaSeconds (secondsOfDay ta) (secondsOfDay tb) : ℚ)) < 86400 := by
          exact_mod_cast h
      _ = 1440 * 60 := by norm_num
  · intro hab
    unfold elapsedMinutes deltaSeconds
    rw [Nat.mod_eq_of_lt (by omega)]

/-- Witness for C10 at a wrap-around instance: arrival 00:10:00,
departure 23:50:00 give exactly 20 minutes, inside `[0, 1440)`. -/
theorem C10_elapsed_in_day_range_witness :
    0 ≤ elapsedMinutes 600 85800 ∧ elapsedMinutes 600 85800 < 1440 ∧
    elapsedMinutes 600 85800 = 20 := by
  obtain ⟨h1, h2, _⟩ :=
    C10_elapsed_in_day_range ⟨0, 10, 0⟩ ⟨23, 50, 0⟩ 600 85800 (by decide) (by decide)
  exact ⟨h1, h2, by norm_num [elapsedMinutes, deltaSeconds]⟩

/-! ## C2: hour-24 normalization -/

/-- C2 counterexample: the In[22] normalization pass inspects and
rewrites only the `arrival_time` column; a departure timestamp
`"24:05:00"` survives the pass with hour 24, not hour 00, so it is
*not* "normalized to hour 00" and is not treated identically to
`"00:05:00"` by the hour-window check (which reads hour 24). -/
theorem C2_counterexample :
    (normalizeStopTimes [⟨100, ⟨8, 0, 0⟩, ⟨24, 5, 0⟩, "S", 1⟩]).map
        (fun r => r.departure_time.h) = [24] ∧ (24 : Nat) ≠ 0 := by
  constructor
  · rfl
  · decide

/-- C2 amended: only *arrival* timestamps with hour value 24 are
normalized to hour 00 before the duration arithmetic (so an arrival
`"24:05:00"` is treated identically to `"00:05:00"` there); departure
timestamps are never rewritten, but a departure with hour 24 fails the
strict `6 < h < 9` window check, so it never feeds the elapsed-time
subtraction as an origin. -/
theorem C2_amended (r : StopRow) :
    ((fixArrival r).departure_time = r.departure_time) ∧
    (r.arrival_time = ⟨24, 5, 0⟩ → (fixArrival r).arrival_time = ⟨0, 5, 0⟩) ∧
    (r.departure_time.h = 24 → ¬(6 < r.departure_time.h ∧ r.departure_time.h < 9)) := by
  refine ⟨?_, ?_, ?_⟩
  · unfold fixArrival; split <;> rfl
  · intro h
    unfold fixArrival
    rw [h]
    rfl
  · intro h
    omega

/-- Witness for C2 amended at a concrete row carrying `24:05:00` in
both time columns. -/
theorem C2_amended_witness :
    ((fixArrival ⟨100, ⟨24, 5, 0⟩, ⟨24, 5, 0⟩, "S", 1⟩).departure_time = ⟨24, 5, 0⟩) ∧
    ((fixArrival ⟨100, ⟨24, 5, 0⟩, ⟨24, 5, 0⟩, "S", 1⟩).arrival_time = ⟨0, 5, 0⟩) ∧
    ¬((6 : Nat) < 24 ∧ (24 : Nat) < 9) := by
  obtain ⟨h1, h2, h3⟩ := C2_amended ⟨100, ⟨24, 5, 0⟩, ⟨24, 5, 0⟩, "S", 1⟩
  exact ⟨h1, h2 rfl, h3 rfl⟩

/-! ## C3: LGA lookup -/

theorem lgaFold_no_match (suburb : String) :
    ∀ (l : List (String × List String)) (acc : String),
      (∀ kv ∈ l, lgaMatch suburb kv = false) →
      l.foldl (fun acc kv => if lgaMatch suburb kv then kv.1 else acc) acc = acc := by
  intro l
  induction l with
  | nil => intro acc _; rfl
  | cons kv rest ih =>
      intro acc h
      have hkv : lgaMatch suburb kv = false := h kv (List.mem_cons_self kv rest)
      rw [List.foldl_cons, if_neg (by simp [hkv])]
      exact ih acc (fun kv' hkv' => h kv' (List.mem_cons_of_mem kv hkv'))

/-- C3 counterexample: with two regions both listing the suburb
`"x"`, the In[14] loop (which has no `break`) leaves the key of the
*last* matching pair in the `Lga` cell, not the first one. -/
theorem C3_counterexample :
    lgaLookup [("R1", ["x"]), ("R2", ["x"])] "x" = "R2" ∧ "R2" ≠ "R1" := by
  constructor
  · rfl
  · decide

/-- C3 amended: the LGA fill loop performs a linear scan over all
(region, suburb-list) pairs with no early exit, so every
case-insensitive exact match overwrites the cell and the *last* match
wins; a property whose suburb matches no pair keeps the
`"not available"` sentinel. -/
theorem C3_amended (dict : List (String × List String)) (suburb : String) :
    ((∀ kv ∈ dict, lgaMatch suburb kv = false) →
        lgaLookup dict suburb = "not available") ∧
    (∀ dict₁ kv dict₂, dict = dict₁ ++ kv :: dict₂ → lgaMatch suburb kv = true →
        (∀ kv' ∈ dict₂, lgaMatch suburb kv' = false) →
        lgaLookup dict suburb = kv.1) := by
  constructor
  · intro h
    exact lgaFold_no_match suburb dict "not available" h
  · intro dict₁ kv dict₂ hsplit hkv hafter
    subst hsplit
    unfold lgaLookup
    rw [List.foldl_append, List.foldl_cons, if_pos (by simp [hkv])]
    exact lgaFold_no_match suburb dict₂ kv.1 hafter

/-- Witness for C3 amended: the concrete two-region dictionary from
the counterexample, resolved through the last-match characterization. -/
theorem C3_amended_witness :
    lgaLookup [("R1", ["x"]), ("R2", ["x"])] "x" = "R2" := by
  refine (C3_amended [("R1", ["x"]), ("R2", ["x"])] "x").2
      [("R1", ["x"])] ("R2", ["x"]) [] rfl (by decide) ?_
  intro kv' hkv'
  simp at hkv'

/-! ## C4: one record per property identifier -/

/-- C4: `drop_duplicates(keep='first')` with no column subset removes
only *fully identical* rows.  Two source records sharing the property
identifier `"P1"` but differing in `addr_street` both survive the
merge, so the enriched set does not contain exactly one record per
unique identifier — contradicting the In[4]/In[5] commentary
("so that only one instance of each property exists"). -/
theorem C4_duplicate_id_survives :
    cleanData [⟨"P1", "-37.8", "145.0", "1 Foo St"⟩]
        [⟨"P1", "-37.8", "145.0", "2 Bar St"⟩] =
      [⟨"P1", "-37.8", "145.0", "1 Foo St"⟩, ⟨"P1", "-37.8", "145.0", "2 Bar St"⟩] ∧
    (cleanData [⟨"P1", "-37.8", "145.0", "1 Foo St"⟩]
        [⟨"P1", "-37.8", "145.0", "2 Bar St"⟩]).map (fun r => r.property_id) =
      ["P1", "P1"] := by
  constructor <;> rfl

/-! ## C5: Nearest-Station Finder -/

theorem nearestLoop_no_update (l : List StationD) :
    ∀ (m : ℚ) (c : Option String), (∀ s ∈ l, m ≤ s.dist) → nearestLoop l m c = (m, c) := by
  induction l with
  | nil => intro m c _; rfl
  | cons x rest ih =>
      intro m c h
      have hx : m ≤ x.dist := h x (List.mem_cons_self x rest)
      unfold nearestLoop
      rw [if_neg (not_lt.mpr hx)]
      exact ih m c (fun s hs => h s (List.mem_cons_of_mem x hs))

theorem nearestLoop_finds_min (l : List StationD) :
    ∀ (i : Nat) (s : StationD) (m : ℚ) (c : Option String),
      l.get? i = some s → (∀ t ∈ l, s.dist ≤ t.dist) →
      (∀ t ∈ l.take i, s.dist < t.dist) → s.dist < m →
      nearestLoop l m c = (s.dist, some s.stop_id) := by
  induction l with
  | nil => intro i s m c h; simp at h
  | cons x rest ih =>
      intro i s m c hget hmin hfirst hm
      cases i with
      | zero =>
          rw [List.get?_cons_zero, Option.some_inj] at hget
          subst hget
          unfold nearestLoop
          rw [if_pos hm]
          exact nearestLoop_no_update rest x.dist (some x.stop_id)
            (fun t ht => hmin t (List.mem_cons_of_mem x ht))
      | succ j =>
          rw [List.get?_cons_succ] at hget
          have hx : s.dist < x.dist := hfirst x (by simp)
          have hmin' : ∀ t ∈ rest, s.dist ≤ t.dist :=
            fun t ht => hmin t (List.mem_cons_of_mem x ht)
          have hfirst' : ∀ t ∈ rest.take j, s.dist < t.dist := by
            intro t ht
            exact hfirst t (by simp [List.take_cons, ht])
          unfold nearestLoop
          by_cases hxm : x.dist < m
          · rw [if_pos hxm]
            exact ih j s x.dist (some x.stop_id) hget hmin' hfirst' hx
          · rw [if_neg hxm]
            exact ih j s m c hget hmin' hfirst' hm

/-- C5 counterexample: a single station at angular distance 2 radians
(attainable on Earth, where angular distances range up to π) is the
minimum over the whole station set, yet the finder returns nothing —
the loop starts from `min_dist = 1` and only strict improvements are
recorded, so no station at distance ≥ 1 radian (6378 km) is ever
selected and the property keeps its In[8] defaults. -/
theorem C5_counterexample :
    nearestStation [⟨"S1", 2⟩] = none := by
  rfl

/-- C5 amended: the finder returns the identifier and the kilometer
distance (angular distance × Earth radius 6378) of the station with
the minimal haversine angular distance, ties broken in favor of the
first-encountered minimum because the running minimum is updated only
on strict less-than — *provided* the minimal angular distance is below
the initial `min_dist` threshold of 1 radian; when every station is at
distance ≥ 1, the loop records nothing and the defaults survive. -/
theorem C5_amended (stations : List StationD) :
    (∀ i s, stations.get? i = some s → (∀ t ∈ stations, s.dist ≤ t.dist) →
        (∀ t ∈ stations.take i, s.dist < t.dist) → s.dist < 1 →
        nearestStation stations = some (s.stop_id, s.dist * 6378)) ∧
    ((∀ t ∈ stations, 1 ≤ t.dist) → nearestStation stations = none) := by
  constructor
  · intro i s hget hmin hfirst h1
    unfold nearestStation
    rw [nearestLoop_finds_min stations i s 1 none hget hmin hfirst h1]
  · intro h
    unfold nearestStation
    rw [nearestLoop_no_update stations 1 none h]

/-- Witness for C5 amended: three stations, the third strictly
closest; the finder returns its id and `6378 × (1/4)` km. -/
theorem C5_amended_witness :
    nearestStation [⟨"A", 1/2⟩, ⟨"B", 1/2⟩, ⟨"C", 1/4⟩] =
      some ("C", (1/4 : ℚ) * 6378) := by
  refine (C5_amended [⟨"A", 1/2⟩, ⟨"B", 1/2⟩, ⟨"C", 1/4⟩]).1 2 ⟨"C", 1/4⟩ rfl ?_ ?_
    (by norm_num)
  · intro t ht
    simp only [List.mem_cons, List.not_mem_nil, or_false] at ht
    rcases ht with rfl | rfl | rfl <;> norm_num
  · intro t ht
    simp only [List.take_succ_cons, List.take_zero, List.mem_cons,
      List.not_mem_nil, or_false] at ht
    rcases ht with rfl | rfl <;> norm_num

/-! ## C6: Geocoder -/

/-- C6: for a point contained (per the polygon containment test) in
exactly one polygon of the set, `in_suburb` returns that polygon's
name; for a point contained in no polygon it returns the
`"not available"` sentinel instead of raising. -/
theorem C6_geocoder (polys : List NamedPoly) (p : RatPoint) :
    (∀ polys₁ np polys₂, polys = polys₁ ++ np :: polys₂ →
        np.contains p = true → (∀ q ∈ polys₁ ++ polys₂, q.contains p = false) →
        in_suburb polys p = np.name) ∧
    ((∀ q ∈ polys, q.contains p = false) → in_suburb polys p = "not available") := by
  constructor
  · intro polys₁ np polys₂ hsplit hnp hrest
    subst hsplit
    unfold in_suburb
    have hfind : List.find? (fun np' => np'.contains p) (polys₁ ++ np :: polys₂)
        = some np := by
      induction polys₁ with
      | nil => simp [List.find?_cons, hnp]
      | cons q rest ih =>
          have hq : q.contains p = false := hrest q (by simp)
          rw [List.cons_append, List.find?_cons, hq]
          exact ih (fun q' hq' => hrest q' (by
            rcases List.mem_append.mp hq' with h | h
            · exact List.mem_append.mpr (Or.inl (List.mem_cons_of_mem q h))
            · exact List.mem_append.mpr (Or.inr h)))
    rw [hfind]
  · intro h
    unfold in_suburb
    have hfind : List.find? (fun np' => np'.contains p) polys = none :=
      List.find?_eq_none.mpr (fun q hq => by simp [h q hq])
    rw [hfind]

/-- Witness for C6: two half-plane polygons, a point inside exactly
the second one; the geocoder returns its name. -/
theorem C6_geocoder_witness :
    in_suburb [⟨"A", fun q => decide (q.lat < 0)⟩, ⟨"B", fun q => decide (0 < q.lat)⟩]
        ⟨0, 1⟩ = "B" := by
  refine (C6_geocoder _ ⟨0, 1⟩).1 [⟨"A", fun q => decide (q.lat < 0)⟩]
    ⟨"B", fun q => decide (0 < q.lat)⟩ [] rfl (by decide) ?_
  intro q hq
  simp at hq
  subst hq
  decide

/-! ## C7: page-level structural integrity check -/

theorem foldInsert_length (pairs : List (String × List String)) :
    ∀ d : List (String × List String),
      (pairs.map Prod.fst).Nodup →
      (∀ kv ∈ pairs, ∀ kv' ∈ d, kv'.1 ≠ kv.1) →
      (pairs.foldl (fun acc kv => dictInsert acc kv.1 kv.2) d).length
        = d.length + pairs.length := by
  induction pairs with
  | nil => intro d _ _; rfl
  | cons kv rest ih =>
      intro d hnodup hfresh
      have hany : d.any (fun kv' => kv'.1 = kv.1) = false := by
        rw [List.any_eq_false]
        intro kv' hkv'
        simp [hfresh kv (by simp) kv' hkv']
      rw [List.foldl_cons]
      have hins : dictInsert d kv.1 kv.2 = d ++ [(kv.1, kv.2)] := by
        unfold dictInsert
        rw [if_neg (by simp [hany])]
      rw [hins]
      rw [List.map_cons, List.nodup_cons] at hnodup
      have hfresh' : ∀ kv'' ∈ rest, ∀ kv' ∈ d ++ [(kv.1, kv.2)], kv'.1 ≠ kv''.1 := by
        intro kv'' hkv'' kv' hkv'
        rcases List.mem_append.mp hkv' with h | h
        · exact hfresh kv'' (List.mem_cons_of_mem kv hkv'') kv' h
        · simp at h
          subst h
          intro hcontra
          exact hnodup.1 (hcontra ▸ List.mem_map_of_mem Prod.fst hkv'')
      rw [ih (d ++ [(kv.1, kv.2)]) hnodup.2 hfresh']
      simp
      omega

/-- C7 counterexample: a page whose two extracted headers are the
same string passes the count check (2 headers, 2 suburb groups) but
contributes only one mapping entry — the second dict assignment
overwrites the first — so an equal-count page does not "always
contribute that many mapping entries". -/
theorem C7_counterexample :
    processPage [] ⟨["A", "A"], [["x"], ["y"]]⟩ = ([("A", ["y"])], false) ∧
    (["A", "A"] : List String).length = 2 := by
  constructor
  · rfl
  · rfl

/-- C7 amended: a page's extracted contributions are written to the
region-to-suburbs mapping iff the count of matched region headers
equals the count of bracketed suburb-list groups; on mismatch the
page's output is discarded and the data-quality warning is signaled
(the loop goes on to the other pages); on equal counts no warning is
signaled and as many dictionary assignments are performed, which
enlarge the mapping by exactly the header count whenever the page's
headers are pairwise distinct and none is already a key (duplicate or
pre-existing headers overwrite instead of adding entries). -/
theorem C7_amended (d : List (String × List String)) (p : Page) :
    (p.lgas.length ≠ p.suburbs.length → processPage d p = (d, true)) ∧
    (p.lgas.length = p.suburbs.length →
        (processPage d p).2 = false ∧
        (p.lgas.Nodup → (∀ k ∈ p.lgas, ∀ kv ∈ d, kv.1 ≠ k) →
            (processPage d p).1.length = d.length + p.lgas.length)) := by
  constructor
  · intro hne
    unfold processPage
    rw [if_neg hne]
  · intro heq
    constructor
    · unfold processPage
      rw [if_pos heq]
    · intro hnodup hfresh
      unfold processPage
      rw [if_pos heq]
      have hzip : ((p.lgas.zip p.suburbs).map Prod.fst) = p.lgas :=
        List.map_fst_zip p.lgas p.suburbs (le_of_eq heq)
      have hlen : (p.lgas.zip p.suburbs).length = p.lgas.length := by
        rw [List.length_zip, heq, min_self]
      rw [foldInsert_length (p.lgas.zip p.suburbs) d (by rw [hzip]; exact hnodup)
        (fun kv hkv kv' hkv' => hfresh kv.1 (by
          have := List.of_mem_zip hkv
          exact this.1) kv' hkv'), hlen]

/-- Witness for C7 amended: the equal-count page `(["A","B"],
[["x"],["y"]])` with distinct fresh headers contributes exactly two
entries to an empty mapping and raises no warning. -/
theorem C7_amended_witness :
    (processPage [] ⟨["A", "B"], [["x"], ["y"]]⟩).2 = false ∧
    (processPage [] ⟨["A", "B"], [["x"], ["y"]]⟩).1.length = 0 + 2 := by
  obtain ⟨h1, h2⟩ := (C7_amended [] ⟨["A", "B"], [["x"], ["y"]]⟩).2 rfl
  exact ⟨h1, h2 (by decide) (by intro k _ kv hkv; simp at hkv)⟩

/-! ## Scan-loop stepping lemmas -/

theorem scanGo_skip (st : List StopRow) (i : Nat) (oDep : HMS) (sb : Int)
    (fuel k : Nat) (t : ℚ) (n : Nat) (r : StopRow)
    (hr : st.get? (i + k) = some r) (hseq : sb ≤ r.stop_sequence)
    (hmc : r.stop_id ≠ "19842") :
    scanGo st i oDep sb (fuel + 1) k t n = scanGo st i oDep sb fuel (k + 1) t n := by
  simp only [scanGo, hr]
  rw [if_neg (not_lt.mpr hseq), if_neg hmc]

theorem scanGo_break (st : List StopRow) (i : Nat) (oDep : HMS) (sb : Int)
    (fuel k : Nat) (t : ℚ) (n : Nat) (r : StopRow)
    (hr : st.get? (i + k) = some r) (hseq : r.stop_sequence < sb) :
    scanGo st i oDep sb (fuel + 1) k t n = some (t, n) := by
  simp only [scanGo, hr]
  rw [if_pos hseq]

theorem scanGo_hit (st : List StopRow) (i : Nat) (oDep : HMS) (sb : Int)
    (fuel k : Nat) (t : ℚ) (n : Nat) (r : StopRow) (asec dsec : Nat)
    (hr : st.get? (i + k) = some r) (hseq : sb ≤ r.stop_sequence)
    (hid : r.stop_id = "19842")
    (ha : strptime r.arrival_time = some asec) (hd : strptime oDep = some dsec) :
    scanGo st i oDep sb (fuel + 1) k t n
      = scanGo st i oDep sb fuel (k + 1) (t + elapsedMinutes asec dsec) (n + 1) := by
  simp only [scanGo, hr]
  rw [if_neg (not_lt.mpr hseq), if_pos hid]
  simp only [ha, hd]

theorem scanGo_skip_many (st : List StopRow) (i : Nat) (oDep : HMS) (sb : Int) :
    ∀ (dcount fuel k : Nat) (t : ℚ) (n : Nat),
      (∀ k', k ≤ k' → k' < k + dcount → ∃ r, st.get? (i + k') = some r ∧
          sb ≤ r.stop_sequence ∧ r.stop_id ≠ "19842") →
      scanGo st i oDep sb (fuel + dcount) k t n
        = scanGo st i oDep sb fuel (k + dcount) t n := by
  intro dcount
  induction dcount with
  | zero => intro fuel k t n _; rfl
  | succ dc ih =>
      intro fuel k t n h
      obtain ⟨r, hr, hseq, hmc⟩ := h k le_rfl (by omega)
      have step : scanGo st i oDep sb ((fuel + dc) + 1) k t n
          = scanGo st i oDep sb (fuel + dc) (k + 1) t n :=
        scanGo_skip st i oDep sb (fuel + dc) k t n r hr hseq hmc
      rw [show fuel + (dc + 1) = (fuel + dc) + 1 from rfl, step,
        ih fuel (k + 1) t n (fun k' h1 h2 => h k' (by omega) (by omega)),
        show k + 1 + dc = k + (dc + 1) from by omega]

theorem scanAttempt_abandon (st : List StopRow) (i k₀ : Nat) (o r : StopRow)
    (ho : st.get? i = some o) (hk1 : 1 ≤ k₀) (hk2 : k₀ ≤ 31)
    (hpre : ∀ k, 1 ≤ k → k < k₀ → ∃ u, st.get? (i + k) = some u ∧
        o.stop_sequence ≤ u.stop_sequence ∧ u.stop_id ≠ "19842")
    (hr : st.get? (i + k₀) = some r) (hseq : r.stop_sequence < o.stop_sequence) :
    scanAttempt st i = some (0, 0) := by
  simp only [scanAttempt, ho]
  rw [show (31 : Nat) = (32 - k₀) + (k₀ - 1) from by omega,
    scanGo_skip_many st i o.departure_time o.stop_sequence (k₀ - 1) (32 - k₀) 1 0 0
      (fun k' h1 h2 => hpre k' h1 (by omega)),
    show 1 + (k₀ - 1) = k₀ from by omega,
    show 32 - k₀ = (31 - k₀) + 1 from by omega]
  exact scanGo_break st i o.departure_time o.stop_sequence (31 - k₀) k₀ 0 0 r hr hseq

theorem scanAttempt_hit (st : List StopRow) (i k₀ : Nat) (o r : StopRow)
    (asec dsec : Nat)
    (ho : st.get? i = some o) (hk1 : 1 ≤ k₀) (hk2 : k₀ ≤ 31)
    (hpre : ∀ k, 1 ≤ k → k < k₀ → ∃ u, st.get? (i + k) = some u ∧
        o.stop_sequence ≤ u.stop_sequence ∧ u.stop_id ≠ "19842")
    (hr : st.get? (i + k₀) = some r) (hseq : o.stop_sequence ≤ r.stop_sequence)
    (hid : r.stop_id = "19842")
    (hdep : strptime o.departure_time = some dsec)
    (harr : strptime r.arrival_time = some asec) :
    scanAttempt st i = scanGo st i o.departure_time o.stop_sequence
      (31 - k₀) (k₀ + 1) (elapsedMinutes asec dsec) 1 := by
  calc scanAttempt st i
      = scanGo st i o.departure_time o.stop_sequence ((32 - k₀) + (k₀ - 1)) 1 0 0 := by
        simp only [scanAttempt, ho]
        rw [show (32 - k₀) + (k₀ - 1) = 31 from by omega]
    _ = scanGo st i o.departure_time o.stop_sequence (32 - k₀) (1 + (k₀ - 1)) 0 0 :=
        scanGo_skip_many st i o.departure_time o.stop_sequence (k₀ - 1) (32 - k₀) 1 0 0
          (fun k' h1 h2 => hpre k' h1 (by omega))
    _ = scanGo st i o.departure_time o.stop_sequence ((31 - k₀) + 1) k₀ 0 0 := by
        rw [show (32 - k₀ : Nat) = (31 - k₀) + 1 from by omega,
          show 1 + (k₀ - 1) = k₀ from by omega]
    _ = scanGo st i o.departure_time o.stop_sequence (31 - k₀) (k₀ + 1)
          (0 + elapsedMinutes asec dsec) (0 + 1) :=
        scanGo_hit st i o.departure_time o.stop_sequence (31 - k₀) k₀ 0 0 r asec dsec
          hr hseq hid harr hdep
    _ = scanGo st i o.departure_time o.stop_sequence (31 - k₀) (k₀ + 1)
          (elapsedMinutes asec dsec) 1 := by
        norm_num

/-! ## C1: forward traversal of one candidate origin -/

/-- C1 counterexample: a candidate origin (station `"S"`, trip 100 —
which the embedded pre-filters confirm runs on all five weekdays and
includes the destination — departure 07:15:00, sequence 1) whose trip
reaches the destination at the next row (arr 07:42:00).  The hit is
recorded, but the loop has no `break` after it: the scan runs on into
trip 101, whose rows start again at sequence 1 (not below the origin's
1, so the end-of-trip test never fires), and counts that trip's
destination row (arr 08:00:00) as a second trip.  The attempt
contributes 72 total minutes over **2** trips, refuting "records
elapsed minutes equal to the destination arrival time minus the origin
departure time ... and counts one trip". -/
theorem C1_counterexample :
    stationStep
      [⟨100, ⟨7, 15, 0⟩, ⟨7, 15, 0⟩, "S", 1⟩,
       ⟨100, ⟨7, 42, 0⟩, ⟨7, 43, 0⟩, "19842", 2⟩,
       ⟨101, ⟨7, 55, 0⟩, ⟨7, 56, 0⟩, "T", 1⟩,
       ⟨101, ⟨8, 0, 0⟩, ⟨8, 1, 0⟩, "19842", 2⟩,
       ⟨102, ⟨9, 0, 0⟩, ⟨9, 0, 0⟩, "U", 0⟩]
      (mc_trips
        [⟨100, ⟨7, 15, 0⟩, ⟨7, 15, 0⟩, "S", 1⟩,
         ⟨100, ⟨7, 42, 0⟩, ⟨7, 43, 0⟩, "19842", 2⟩,
         ⟨101, ⟨7, 55, 0⟩, ⟨7, 56, 0⟩, "T", 1⟩,
         ⟨101, ⟨8, 0, 0⟩, ⟨8, 1, 0⟩, "19842", 2⟩,
         ⟨102, ⟨9, 0, 0⟩, ⟨9, 0, 0⟩, "U", 0⟩]
        (trip_set [⟨100, 1⟩, ⟨101, 1⟩, ⟨102, 1⟩]
          (service_list [⟨1, 1, 1, 1, 1, 1⟩])))
      "S" (some (0, 0)) 0 = some (72, 2) ∧ (2 : Nat) ≠ 1 := by
  have h0 : ([⟨100, ⟨7, 15, 0⟩, ⟨7, 15, 0⟩, "S", 1⟩,
       ⟨100, ⟨7, 42, 0⟩, ⟨7, 43, 0⟩, "19842", 2⟩,
       ⟨101, ⟨7, 55, 0⟩, ⟨7, 56, 0⟩, "T", 1⟩,
       ⟨101, ⟨8, 0, 0⟩, ⟨8, 1, 0⟩, "19842", 2⟩,
       ⟨102, ⟨9, 0, 0⟩, ⟨9, 0, 0⟩, "U", 0⟩] : List StopRow).get? 0
      = some ⟨100, ⟨7, 15, 0⟩, ⟨7, 15, 0⟩, "S", 1⟩ := rfl
  have hsc : scanAttempt
      [⟨100, ⟨7, 15, 0⟩, ⟨7, 15, 0⟩, "S", 1⟩,
       ⟨100, ⟨7, 42, 0⟩, ⟨7, 43, 0⟩, "19842", 2⟩,
       ⟨101, ⟨7, 55, 0⟩, ⟨7, 56, 0⟩, "T", 1⟩,
       ⟨101, ⟨8, 0, 0⟩, ⟨8, 1, 0⟩, "19842", 2⟩,
       ⟨102, ⟨9, 0, 0⟩, ⟨9, 0, 0⟩, "U", 0⟩] 0 = some (72, 2) := by
    simp only [scanAttempt, h0]
    show scanGo
      [⟨100, ⟨7, 15, 0⟩, ⟨7, 15, 0⟩, "S", 1⟩,
       ⟨100, ⟨7, 42, 0⟩, ⟨7, 43, 0⟩, "19842", 2⟩,
       ⟨101, ⟨7, 55, 0⟩, ⟨7, 56, 0⟩, "T", 1⟩,
       ⟨101, ⟨8, 0, 0⟩, ⟨8, 1, 0⟩, "19842", 2⟩,
       ⟨102, ⟨9, 0, 0⟩, ⟨9, 0, 0⟩, "U", 0⟩] 0 ⟨7, 15, 0⟩ 1 (30 + 1) 1 0 0
      = some (72, 2)
    rw [scanGo_hit
      [⟨100, ⟨7, 15, 0⟩, ⟨7, 15, 0⟩, "S", 1⟩,
       ⟨100, ⟨7, 42, 0⟩, ⟨7, 43, 0⟩, "19842", 2⟩,
       ⟨101, ⟨7, 55, 0⟩, ⟨7, 56, 0⟩, "T", 1⟩,
       ⟨101, ⟨8, 0, 0⟩, ⟨8, 1, 0⟩, "19842", 2⟩,
       ⟨102, ⟨9, 0, 0⟩, ⟨9, 0, 0⟩, "U", 0⟩] 0 ⟨7, 15, 0⟩ 1 30 1 0 0
      ⟨100, ⟨7, 42, 0⟩, ⟨7, 43, 0⟩, "19842", 2⟩ 27720 26100 rfl (by decide) rfl rfl rfl]
    show scanGo
      [⟨100, ⟨7, 15, 0⟩, ⟨7, 15, 0⟩, "S", 1⟩,
       ⟨100, ⟨7, 42, 0⟩, ⟨7, 43, 0⟩, "19842", 2⟩,
       ⟨101, ⟨7, 55, 0⟩, ⟨7, 56, 0⟩, "T", 1⟩,
       ⟨101, ⟨8, 0, 0⟩, ⟨8, 1, 0⟩, "19842", 2⟩,
       ⟨102, ⟨9, 0, 0⟩, ⟨9, 0, 0⟩, "U", 0⟩] 0 ⟨7, 15, 0⟩ 1 (29 + 1) 2
      (0 + elapsedMinutes 27720 26100) (0 + 1) = some (72, 2)
    rw [scanGo_skip
      [⟨100, ⟨7, 15, 0⟩, ⟨7, 15, 0⟩, "S", 1⟩,
       ⟨100, ⟨7, 42, 0⟩, ⟨7, 43, 0⟩, "19842", 2⟩,
       ⟨101, ⟨7, 55, 0⟩, ⟨7, 56, 0⟩, "T", 1⟩,
       ⟨101, ⟨8, 0, 0⟩, ⟨8, 1, 0⟩, "19842", 2⟩,
       ⟨102, ⟨9, 0, 0⟩, ⟨9, 0, 0⟩, "U", 0⟩] 0 ⟨7, 15, 0⟩ 1 29 2
      (0 + elapsedMinutes 27720 26100) (0 + 1)
      ⟨101, ⟨7, 55, 0⟩, ⟨7, 56, 0⟩, "T", 1⟩ rfl (by decide) (by decide)]
    show scanGo
      [⟨100, ⟨7, 15, 0⟩, ⟨7, 15, 0⟩, "S", 1⟩,
       ⟨100, ⟨7, 42, 0⟩, ⟨7, 43, 0⟩, "19842", 2⟩,
       ⟨101, ⟨7, 55, 0⟩, ⟨7, 56, 0⟩, "T", 1⟩,
       ⟨101, ⟨8, 0, 0⟩, ⟨8, 1, 0⟩, "19842", 2⟩,
       ⟨102, ⟨9, 0, 0⟩, ⟨9, 0, 0⟩, "U", 0⟩] 0 ⟨7, 15, 0⟩ 1 (28 + 1) 3
      (0 + elapsedMinutes 27720 26100) (0 + 1) = some (72, 2)
    rw [scanGo_hit
      [⟨100, ⟨7, 15, 0⟩, ⟨7, 15, 0⟩, "S", 1⟩,
       ⟨100, ⟨7, 42, 0⟩, ⟨7, 43, 0⟩, "19842", 2⟩,
       ⟨101, ⟨7, 55, 0⟩, ⟨7, 56, 0⟩, "T", 1⟩,
       ⟨101, ⟨8, 0, 0⟩, ⟨8, 1, 0⟩, "19842", 2⟩,
       ⟨102, ⟨9, 0, 0⟩, ⟨9, 0, 0⟩, "U", 0⟩] 0 ⟨7, 15, 0⟩ 1 28 3
      (0 + elapsedMinutes 27720 26100) (0 + 1)
      ⟨101, ⟨8, 0, 0⟩, ⟨8, 1, 0⟩, "19842", 2⟩ 28800 26100 rfl (by decide) rfl rfl rfl]
    show scanGo
      [⟨100, ⟨7, 15, 0⟩, ⟨7, 15, 0⟩, "S", 1⟩,
       ⟨100, ⟨7, 42, 0⟩, ⟨7, 43, 0⟩, "19842", 2⟩,
       ⟨101, ⟨7, 55, 0⟩, ⟨7, 56, 0⟩, "T", 1⟩,
       ⟨101, ⟨8, 0, 0⟩, ⟨8, 1, 0⟩, "19842", 2⟩,
       ⟨102, ⟨9, 0, 0⟩, ⟨9, 0, 0⟩, "U", 0⟩] 0 ⟨7, 15, 0⟩ 1 (27 + 1) 4
      (0 + elapsedMinutes 27720 26100 + elapsedMinutes 28800 26100) (0 + 1 + 1)
      = some (72, 2)
    rw [scanGo_break
      [⟨100, ⟨7, 15, 0⟩, ⟨7, 15, 0⟩, "S", 1⟩,
       ⟨100, ⟨7, 42, 0⟩, ⟨7, 43, 0⟩, "19842", 2⟩,
       ⟨101, ⟨7, 55, 0⟩, ⟨7, 56, 0⟩, "T", 1⟩,
       ⟨101, ⟨8, 0, 0⟩, ⟨8, 1, 0⟩, "19842", 2⟩,
       ⟨102, ⟨9, 0, 0⟩, ⟨9, 0, 0⟩, "U", 0⟩] 0 ⟨7, 15, 0⟩ 1 27 4
      (0 + elapsedMinutes 27720 26100 + elapsedMinutes 28800 26100) (0 + 1 + 1)
      ⟨102, ⟨9, 0, 0⟩, ⟨9, 0, 0⟩, "U", 0⟩ rfl (by decide)]
    norm_num [elapsedMinutes, deltaSeconds]
  refine ⟨?_, by decide⟩
  simp only [stationStep, h0, hsc]
  rw [if_pos (by decide)]
  norm_num

/-- C1 amended: for a candidate origin stop event (row `i` whose
station is the property's nearest station `sid`, whose trip is in the
weekday/destination pre-filter `mc`, and whose departure hour `h` has
`6 < h < 9`), the router walks forward through consecutive
stop-sequence entries, scanning at most the 31 rows after the origin:
writing `k₀` for the first offset at which either event occurs, if the
sequence number decreases there the attempt is abandoned and
contributes zero trips and zero minutes; if the destination station
`"19842"` is reached there, the attempt records elapsed minutes equal
to the destination arrival time minus the origin departure time and
counts one trip *for that hit* — but the walk does not stop at the
destination: it continues from offset `k₀+1` with the remaining scan
budget, so a scan that crosses into a following trip whose rows never
drop below the origin's sequence number can count additional
destination rows as further (spurious) trips (see the
counterexample). -/
theorem C1_schedule_traversal
    (st : List StopRow) (mc : List Nat) (sid : String) (i k₀ : Nat) (o : StopRow)
    (ho : st.get? i = some o)
    (hsid : o.stop_id = sid) (hmc : o.trip_id ∈ mc)
    (hh1 : 6 < o.departure_time.h) (hh2 : o.departure_time.h < 9)
    (hk1 : 1 ≤ k₀) (hk2 : k₀ ≤ 31)
    (hpre : ∀ k, 1 ≤ k → k < k₀ → ∃ u, st.get? (i + k) = some u ∧
        o.stop_sequence ≤ u.stop_sequence ∧ u.stop_id ≠ "19842") :
    (∀ r, st.get? (i + k₀) = some r → r.stop_sequence < o.stop_sequence →
        ∀ (T : ℚ) (N : Nat), stationStep st mc sid (some (T, N)) i = some (T, N)) ∧
    (∀ r asec dsec, st.get? (i + k₀) = some r → o.stop_sequence ≤ r.stop_sequence →
        r.stop_id = "19842" →
        strptime o.departure_time = some dsec → strptime r.arrival_time = some asec →
        scanAttempt st i = scanGo st i o.departure_time o.stop_sequence
          (31 - k₀) (k₀ + 1) (elapsedMinutes asec dsec) 1) := by
  constructor
  · intro r hr hseq T N
    have hsc := scanAttempt_abandon st i k₀ o r ho hk1 hk2 hpre hr hseq
    simp only [stationStep, ho, hsc]
    rw [if_pos ⟨hsid, hmc, hh1, hh2⟩]
    norm_num
  · intro r asec dsec hr hseq hid hdep harr
    exact scanAttempt_hit st i k₀ o r asec dsec ho hk1 hk2 hpre hr hseq hid hdep harr

/-- Witness for C1 amended: a four-row table — a weekday trip 100
stopping at `"S"` (dep 07:15:00, seq 2), an intermediate stop (seq 3),
Melbourne Central (arr 07:42:00, seq 4), then the next trip's first
row (seq 1, ending the trip): the hit records exactly 27 minutes and
one trip, and the continuation the theorem exposes then meets the
sequence decrease, so the whole attempt yields `(27, 1)`. -/
theorem C1_schedule_traversal_witness :
    scanAttempt
      [⟨100, ⟨7, 15, 0⟩, ⟨7, 15, 0⟩, "S", 2⟩,
       ⟨100, ⟨7, 30, 0⟩, ⟨7, 30, 0⟩, "X", 3⟩,
       ⟨100, ⟨7, 42, 0⟩, ⟨7, 43, 0⟩, "19842", 4⟩,
       ⟨101, ⟨8, 0, 0⟩, ⟨8, 0, 0⟩, "S", 1⟩] 0 = some (27, 1) := by
  have hpre : ∀ k, 1 ≤ k → k < 2 →
      ∃ u, ([⟨100, ⟨7, 15, 0⟩, ⟨7, 15, 0⟩, "S", 2⟩,
        ⟨100, ⟨7, 30, 0⟩, ⟨7, 30, 0⟩, "X", 3⟩,
        ⟨100, ⟨7, 42, 0⟩, ⟨7, 43, 0⟩, "19842", 4⟩,
        ⟨101, ⟨8, 0, 0⟩, ⟨8, 0, 0⟩, "S", 1⟩] : List StopRow).get? (0 + k) = some u ∧
        (2 : Int) ≤ u.stop_sequence ∧ u.stop_id ≠ "19842" := by
    intro k h1 h2
    have hk : k = 1 := by omega
    subst hk
    exact ⟨⟨100, ⟨7, 30, 0⟩, ⟨7, 30, 0⟩, "X", 3⟩, rfl, by decide, by decide⟩
  have h := (C1_schedule_traversal
      [⟨100, ⟨7, 15, 0⟩, ⟨7, 15, 0⟩, "S", 2⟩,
       ⟨100, ⟨7, 30, 0⟩, ⟨7, 30, 0⟩, "X", 3⟩,
       ⟨100, ⟨7, 42, 0⟩, ⟨7, 43, 0⟩, "19842", 4⟩,
       ⟨101, ⟨8, 0, 0⟩, ⟨8, 0, 0⟩, "S", 1⟩] [100] "S" 0 2
      ⟨100, ⟨7, 15, 0⟩, ⟨7, 15, 0⟩, "S", 2⟩ rfl rfl (by decide) (by decide) (by decide)
      (by decide) (by decide) hpre).2
      ⟨100, ⟨7, 42, 0⟩, ⟨7, 43, 0⟩, "19842", 4⟩ 27720 26100 rfl (by decide) rfl rfl rfl
  rw [h]
  show scanGo
      [⟨100, ⟨7, 15, 0⟩, ⟨7, 15, 0⟩, "S", 2⟩,
       ⟨100, ⟨7, 30, 0⟩, ⟨7, 30, 0⟩, "X", 3⟩,
       ⟨100, ⟨7, 42, 0⟩, ⟨7, 43, 0⟩, "19842", 4⟩,
       ⟨101, ⟨8, 0, 0⟩, ⟨8, 0, 0⟩, "S", 1⟩] 0 ⟨7, 15, 0⟩ 2 (28 + 1) 3
      (elapsedMinutes 27720 26100) 1 = some (27, 1)
  rw [scanGo_break
    [⟨100, ⟨7, 15, 0⟩, ⟨7, 15, 0⟩, "S", 2⟩,
     ⟨100, ⟨7, 30, 0⟩, ⟨7, 30, 0⟩, "X", 3⟩,
     ⟨100, ⟨7, 42, 0⟩, ⟨7, 43, 0⟩, "19842", 4⟩,
     ⟨101, ⟨8, 0, 0⟩, ⟨8, 0, 0⟩, "S", 1⟩] 0 ⟨7, 15, 0⟩ 2 28 3
    (elapsedMinutes 27720 26100) 1
    ⟨101, ⟨8, 0, 0⟩, ⟨8, 0, 0⟩, "S", 1⟩ rfl (by decide)]
  norm_num [elapsedMinutes, deltaSeconds]

/-! ## C8: memoization of the Travel-Time Table -/

theorem lookup_append_of_some (a : String) (l l' : List (String × TravelVal))
    (v : TravelVal) (h : l.lookup a = some v) : (l ++ l').lookup a = some v := by
  induction l with
  | nil => simp [List.lookup] at h
  | cons kv rest ih =>
      obtain ⟨k, w⟩ := kv
      rw [List.cons_append]
      cases hk : (a == k) with
      | true => simp [List.lookup, hk] at h ⊢; exact h
      | false => simp [List.lookup, hk] at h ⊢; exact ih h

theorem lookup_append_of_none (a : String) (l l' : List (String × TravelVal))
    (h : l.lookup a = none) : (l ++ l').lookup a = l'.lookup a := by
  induction l with
  | nil => rfl
  | cons kv rest ih =>
      obtain ⟨k, w⟩ := kv
      rw [List.cons_append]
      cases hk : (a == k) with
      | true => simp [List.lookup, hk] at h
      | false => simp only [List.lookup, hk] at h ⊢; exact ih h

theorem routerLoop_log_spec (st : List StopRow) (mc : List Nat) :
    ∀ (sids : List String) (dict : List (String × TravelVal)) (log : List String)
      (d : List (String × TravelVal)) (log' : List String),
      routerLoop st mc sids dict log = some (d, log') →
      (∀ s ∈ log, (dict.lookup s).isSome) → log.Nodup →
      log'.Nodup ∧
      (∀ s : String, (dict.lookup s).isSome → (d.lookup s).isSome) ∧
      (∀ s ∈ log', s ∈ log ∨ dict.lookup s = none) := by
  intro sids
  induction sids with
  | nil =>
      intro dict log d log' h hinv hnodup
      simp only [routerLoop, Option.some_inj, Prod.mk.injEq] at h
      obtain ⟨rfl, rfl⟩ := h
      exact ⟨hnodup, fun s hs => hs, fun s hs => Or.inl hs⟩
  | cons sid rest ih =>
      intro dict log d log' h hinv hnodup
      simp only [routerLoop] at h
      by_cases hc : (dict.lookup sid).isSome
      · rw [if_pos hc] at h
        exact ih dict log d log' h hinv hnodup
      · rw [if_neg hc] at h
        have hc' : dict.lookup sid = none := Option.not_isSome_iff_eq_none.mp hc
        cases hv : stationTravelTime st mc sid with
        | none => rw [hv] at h; simp at h
        | some v =>
            rw [hv] at h
            have hinv' : ∀ s ∈ log ++ [sid], ((dict ++ [(sid, v)]).lookup s).isSome := by
              intro s hs
              rcases List.mem_append.mp hs with hs | hs
              · obtain ⟨w, hw⟩ := Option.isSome_iff_exists.mp (hinv s hs)
                rw [lookup_append_of_some s dict [(sid, v)] w hw]
                rfl
              · rw [List.mem_singleton] at hs
                subst hs
                rw [lookup_append_of_none s dict [(s, v)] hc']
                simp [List.lookup]
            have hnodup' : (log ++ [sid]).Nodup := by
              rw [List.nodup_append]
              refine ⟨hnodup, List.nodup_singleton sid, ?_⟩
              intro a ha hb
              rw [List.mem_singleton] at hb
              subst hb
              exact hc (hinv a ha)
            obtain ⟨h1, h2, h3⟩ := ih _ _ _ _ h hinv' hnodup'
            refine ⟨h1, ?_, ?_⟩
            · intro s hs
              apply h2
              obtain ⟨w, hw⟩ := Option.isSome_iff_exists.mp hs
              rw [lookup_append_of_some s dict [(sid, v)] w hw]
              rfl
            · intro s hs
              rcases h3 s hs with hmem | hnone
              · rcases List.mem_append.mp hmem with h' | h'
                · exact Or.inl h'
                · rw [List.mem_singleton] at h'
                  subst h'
                  exact Or.inr hc'
              · right
                cases hd : dict.lookup s with
                | none => rfl
                | some w =>
                    rw [lookup_append_of_some s dict [(sid, v)] w hd] at hnone
                    cases hnone

/-- C8: across the whole property set, the station table scan runs at
most once per distinct station identifier — the `log` of stations for
which the `stop_id not in trip_dict.keys()` branch executed has no
duplicates — and it never runs for the pre-seeded destination station
`"19842"`; every later property sharing a station finds it in
`trip_dict` and reuses the cached value. -/
theorem C8_travel_time_memoized (st : List StopRow) (mc : List Nat)
    (sids : List String) (d : List (String × TravelVal)) (log : List String)
    (h : routerLoop st mc sids trip_dict_init [] = some (d, log)) :
    log.Nodup ∧ "19842" ∉ log := by
  obtain ⟨h1, _, h3⟩ := routerLoop_log_spec st mc sids trip_dict_init [] d log h
    (by intro s hs; simp at hs) List.nodup_nil
  refine ⟨h1, fun hmem => ?_⟩
  rcases h3 _ hmem with h' | h'
  · simp at h'
  · exact absurd h' (by simp [trip_dict_init, List.lookup])

/-- Witness for C8: three properties whose nearest stations are
`"A"`, `"A"` again, and the destination `"19842"`; the scan log
contains `"A"` exactly once and the destination never. -/
theorem C8_travel_time_memoized_witness :
    (["A"] : List String).Nodup ∧ "19842" ∉ (["A"] : List String) :=
  C8_travel_time_memoized [] [] ["A", "A", "19842"]
    (trip_dict_init ++ [("A", TravelVal.notAvailable)]) ["A"] (by rfl)

/-! ## C9: fatality of the unguarded forward scan -/

/-- C9 counterexample: a stop-times table with a single row that is a
valid candidate origin (station `"S"`, trip in the pre-filter,
departure hour 7).  The forward scan immediately reads `st_np[0+1]`,
one past the end of the table — the `IndexError` (modelled as `none`)
aborts the run instead of producing a sentineled record, so the claim
that the scan never accesses a row outside the table (and that no
input condition is fatal) is false. -/
theorem C9_counterexample :
    routerLoop [⟨100, ⟨7, 20, 0⟩, ⟨7, 15, 0⟩, "S", 1⟩] [100] ["S"] trip_dict_init []
      = none := by
  rfl

theorem scanGo_ne_none (st : List StopRow) (i : Nat) (oDep : HMS) (sb : Int)
    (hdep : strptime oDep ≠ none)
    (harr : ∀ r ∈ st, strptime r.arrival_time ≠ none) :
    ∀ (fuel k : Nat) (t : ℚ) (n : Nat), k + fuel ≤ 32 → i + 31 < st.length →
      scanGo st i oDep sb fuel k t n ≠ none := by
  intro fuel
  induction fuel with
  | zero => intro k t n _ _; simp [scanGo]
  | succ f ih =>
      intro k t n hk hlen
      have hidx : i + k < st.length := by omega
      obtain ⟨r, hr⟩ : ∃ r, st.get? (i + k) = some r :=
        ⟨st.get ⟨i + k, hidx⟩, List.get?_eq_get hidx⟩
      simp only [scanGo, hr]
      by_cases h1 : r.stop_sequence < sb
      · rw [if_pos h1]
        simp
      · rw [if_neg h1]
        by_cases h2 : r.stop_id = "19842"
        · rw [if_pos h2]
          cases ha : strptime r.arrival_time with
          | none => exact absurd ha (harr r (List.get?_mem hr))
          | some asec =>
              cases hd : strptime oDep with
              | none => exact absurd hd hdep
              | some dsec =>
                  exact ih (k + 1) (t + elapsedMinutes asec dsec) (n + 1)
                    (by omega) hlen
        · rw [if_neg h2]
          exact ih (k + 1) t n (by omega) hlen

/-- C9 amended: the forward scan reads rows only at offsets `i+1`
through `i+31`, so whenever the candidate origin lies at least 31 rows
before the end of the stop-times table (and the timestamps it meets
parse), no out-of-table access happens and the attempt completes; but
a candidate origin within the last 31 rows can make the scan read past
the table, which raises `IndexError` and aborts the run instead of
yielding sentinel output (see the counterexample). -/
theorem C9_amended (st : List StopRow) (i : Nat)
    (hlen : i + 31 < st.length)
    (harr : ∀ r ∈ st, strptime r.arrival_time ≠ none)
    (hdep : ∀ r ∈ st, strptime r.departure_time ≠ none) :
    scanAttempt st i ≠ none := by
  have hidx : i < st.length := by omega
  obtain ⟨o, ho⟩ : ∃ o, st.get? i = some o :=
    ⟨st.get ⟨i, hidx⟩, List.get?_eq_get hidx⟩
  simp only [scanAttempt, ho]
  exact scanGo_ne_none st i o.departure_time o.stop_sequence
    (hdep o (List.get?_mem ho)) harr 31 1 0 0 (by omega) hlen

/-- Witness for C9 amended: a 32-row table whose origin at index 0 is
31 rows from the end; the scan completes without an out-of-table
access. -/
theorem C9_amended_witness :
    scanAttempt (List.replicate 32 ⟨100, ⟨7, 20, 0⟩, ⟨7, 15, 0⟩, "X", 1⟩) 0 ≠ none := by
  apply C9_amended
  · simp
  · intro r hr
    rw [List.eq_of_mem_replicate hr]
    decide
  · intro r hr
    rw [List.eq_of_mem_replicate hr]
    decide

end DataIntegration
